import Mathlib

/-
Verification of the per-connection LDAP session loop of lldap
(src/server/src/infra/ldap_server.rs), as a shallow embedding.

The embedding models:
  - LdapMsg (from ldap3_server): msgid, opaque operation payload, controls;
  - the framed writer (FramedWrite over LdapCodec) as a trace of send and
    flush events, with an environment scheduling io errors for each send
    and flush attempt;
  - anyhow error contexts as a list of context strings, outermost first;
  - the session handler (LdapHandler::handle_ldap_message, outside the
    sources, opaque per the spec) as an arbitrary state-passing function
    returning either a response batch or the terminate sentinel (none);
  - handle_incoming_message and the while-let loop of build_ldap_server.
-/

namespace Lldap

/-- A protocol message: correlation id (msgid), opaque operation payload,
and a sequence of controls. Mirrors ldap3_server LdapMsg as used by
ldap_server.rs, with the operation and control types kept abstract since
the loop never inspects them. -/
structure LdapMsg (Op Ctl : Type) where
  msgid : Int
  op : Op
  ctrl : List Ctl
  deriving DecidableEq, Repr

/-- One observable effect on the frame writer: a message handed to send,
or a flush. -/
inductive WEvent (Op Ctl : Type) where
  | sent (m : LdapMsg Op Ctl)
  | flushed
  deriving DecidableEq, Repr

/-- The io environment: for the k-th send attempt and the k-th flush
attempt on the connection it decides success (none) or an io error code. -/
structure Env where
  sendErr : Nat → Option Nat
  flushErr : Nat → Option Nat

/-- The fault-free environment: every send and flush succeeds. -/
def env0 : Env := ⟨fun _ => none, fun _ => none⟩

/-- State of the FramedWrite half: the trace of successful events so far,
and how many send and flush attempts were made (indexing into Env). -/
structure Writer (Op Ctl : Type) where
  trace : List (WEvent Op Ctl)
  sends : Nat
  flushes : Nat
  deriving DecidableEq, Repr

/-- A fresh writer for a new connection. -/
def Writer.init {Op Ctl : Type} : Writer Op Ctl := ⟨[], 0, 0⟩

/-- One resp.send attempt: on scheduled io error the trace is unchanged,
otherwise the sent message is appended to the trace. -/
def Writer.send {Op Ctl : Type} (env : Env) (w : Writer Op Ctl) (m : LdapMsg Op Ctl) :
    Option Nat × Writer Op Ctl :=
  match env.sendErr w.sends with
  | some e => (some e, ⟨w.trace, w.sends + 1, w.flushes⟩)
  | none => (none, ⟨w.trace ++ [WEvent.sent m], w.sends + 1, w.flushes⟩)

/-- One resp.flush attempt: on scheduled io error the trace is unchanged,
otherwise a flush event is appended to the trace. -/
def Writer.flush {Op Ctl : Type} (env : Env) (w : Writer Op Ctl) :
    Option Nat × Writer Op Ctl :=
  match env.flushErr w.flushes with
  | some e => (some e, ⟨w.trace, w.sends, w.flushes + 1⟩)
  | none => (none, ⟨w.trace ++ [WEvent.flushed], w.sends, w.flushes + 1⟩)

/-- An anyhow-style error: the underlying io error code and the stack of
context strings, outermost (most recently attached) first. -/
structure AError where
  base : Nat
  contexts : List String
  deriving DecidableEq, Repr

/-- Result.context on an anyhow error: pushes a new outermost context. -/
def addContext (s : String) (e : AError) : AError := ⟨e.base, s :: e.contexts⟩

/-- Result.context on a raw io error: wraps it with one context. -/
def ioContext (s : String) (e : Nat) : AError := ⟨e, [s]⟩

/-- Context string attached when receiving a message fails. -/
def recvContext : String := "while receiving LDAP op"

/-- Context string attached when a send fails. -/
def sendContext : String := "while sending a response: \x7b:#\x7d"

/-- Context string attached when the flush fails. -/
def flushContext : String := "while flushing responses: \x7b:#\x7d"

/-- Context string attached by the connection loop around any failure of
handle_incoming_message. -/
def loopContext : String := "while handling incoming messages"

/-- The opaque session handler: from session state and an operation
payload it yields the new session state and either none (the terminate
sentinel of LdapHandler::handle_ldap_message) or a response batch. -/
def Handler (σ Op : Type) : Type := σ → Op → σ × Option (List Op)

/-- The for loop inside handle_incoming_message: send one outbound
LdapMsg per response operation, in order, echoing msgid and with empty
controls; the first io error aborts the rest of the batch. -/
def sendBatch {Op Ctl : Type} (env : Env) (msgid : Int) (ops : List Op)
    (w : Writer Op Ctl) : Option Nat × Writer Op Ctl :=
  match ops with
  | [] => (none, w)
  | op :: rest =>
    match Writer.send env w ⟨msgid, op, []⟩ with
    | (some e, w2) => (some e, w2)
    | (none, w2) => sendBatch env msgid rest w2

/-- Shallow embedding of handle_incoming_message: its Result of bool,
together with the final states of the two mutable borrows (the writer
and the session). -/
def handle_incoming_message {σ Op Ctl : Type} (env : Env) (handle : Handler σ Op)
    (msg : Except Nat (LdapMsg Op Ctl)) (resp : Writer Op Ctl) (session : σ) :
    Except AError Bool × Writer Op Ctl × σ :=
  match msg with
  | Except.error e => (Except.error (ioContext recvContext e), resp, session)
  | Except.ok m =>
    match handle session m.op with
    | (s2, none) => (Except.ok false, resp, s2)
    | (s2, some result) =>
      match sendBatch env m.msgid result resp with
      | (some e, w2) => (Except.error (ioContext sendContext e), w2, s2)
      | (none, w2) =>
        match Writer.flush env w2 with
        | (some e, w3) => (Except.error (ioContext flushContext e), w3, s2)
        | (none, w3) => (Except.ok true, w3, s2)

/-- Shallow embedding of the while-let loop of build_ldap_server: msgs is
the sequence of items the FramedRead stream would yield; the loop stops
on stream end, on the false return of handle_incoming_message, or on an
error, which it wraps with loopContext. -/
def session_loop {σ Op Ctl : Type} (env : Env) (handle : Handler σ Op)
    (msgs : List (Except Nat (LdapMsg Op Ctl))) (resp : Writer Op Ctl) (session : σ) :
    Except AError Unit × Writer Op Ctl × σ :=
  match msgs with
  | [] => (Except.ok (), resp, session)
  | m :: rest =>
    match handle_incoming_message env handle m resp session with
    | (Except.error e, w2, s2) => (Except.error (addContext loopContext e), w2, s2)
    | (Except.ok true, w2, s2) => session_loop env handle rest w2 s2
    | (Except.ok false, w2, s2) => (Except.ok (), w2, s2)

/-- The wire events one response batch should produce for a message with
the given correlation id: one sent message per response operation, in
batch order, echoing the msgid and with empty controls. -/
def batchEvents {Op Ctl : Type} (msgid : Int) (ops : List Op) : List (WEvent Op Ctl) :=
  ops.map (fun op => WEvent.sent ⟨msgid, op, []⟩)

/-- Spec-side expected wire trace for a list of successfully decoded
inbound messages: for each message in arrival order, its full response
batch followed by one flush, stopping at the first terminate sentinel.
Written from the spec wording about ordering and flushing discipline. -/
def specTrace {σ Op Ctl : Type} (handle : Handler σ Op) (s : σ) :
    List (LdapMsg Op Ctl) → List (WEvent Op Ctl)
  | [] => []
  | m :: rest =>
    match handle s m.op with
    | (_, none) => []
    | (s2, some batch) =>
      batchEvents m.msgid batch ++ [WEvent.flushed] ++ specTrace handle s2 rest

/-- Spec-side expected sequence of outbound correlation ids: for each
inbound message in order, its msgid repeated once per response operation,
stopping at the first terminate sentinel. -/
def specIds {σ Op Ctl : Type} (handle : Handler σ Op) (s : σ) :
    List (LdapMsg Op Ctl) → List Int
  | [] => []
  | m :: rest =>
    match handle s m.op with
    | (_, none) => []
    | (s2, some batch) =>
      List.replicate batch.length m.msgid ++ specIds handle s2 (rest : List (LdapMsg Op Ctl))

/-- The correlation ids of the messages sent in a writer trace, in order. -/
def sentIds {Op Ctl : Type} : List (WEvent Op Ctl) → List Int
  | [] => []
  | WEvent.sent m :: rest => m.msgid :: sentIds rest
  | WEvent.flushed :: rest => sentIds rest

/-- Replace the correlation id of a sent event; flush events are kept. -/
def setMsgid {Op Ctl : Type} (i : Int) : WEvent Op Ctl → WEvent Op Ctl
  | WEvent.sent m => WEvent.sent ⟨i, m.op, m.ctrl⟩
  | WEvent.flushed => WEvent.flushed

/-- Spec-side classification of how the connection loop exits: stream
exhausted, terminate sentinel (carrying the unread remainder of the
stream), or a fatal failure tagged with its phase context. -/
inductive Outcome (Op Ctl : Type) where
  | exhausted
  | terminated (unread : List (Except Nat (LdapMsg Op Ctl)))
  | failed (phase : String)
  deriving Repr

/-- Spec-side run classifier, following the spec loop description: pull
items in order; a decode error fails in the receive phase; a terminate
sentinel ends the run with the rest unread; otherwise the batch is sent
then flushed, failing in the respective phase, and the run continues. -/
def runOutcome {σ Op Ctl : Type} (env : Env) (handle : Handler σ Op) :
    List (Except Nat (LdapMsg Op Ctl)) → Writer Op Ctl → σ → Outcome Op Ctl
  | [], _, _ => Outcome.exhausted
  | Except.error _ :: _, _, _ => Outcome.failed recvContext
  | Except.ok m :: rest, w, s =>
    match handle s m.op with
    | (_, none) => Outcome.terminated rest
    | (s2, some batch) =>
      match sendBatch env m.msgid batch w with
      | (some _, _) => Outcome.failed sendContext
      | (none, w2) =>
        match Writer.flush env w2 with
        | (some _, _) => Outcome.failed flushContext
        | (none, w3) => runOutcome env handle rest w3 s2

theorem sendBatch_env0 {Op Ctl : Type} (msgid : Int) :
    ∀ (ops : List Op) (w : Writer Op Ctl),
    sendBatch env0 msgid ops w
      = (none, ⟨w.trace ++ batchEvents msgid ops, w.sends + ops.length, w.flushes⟩) := by
  intro ops
  induction ops with
  | nil => intro w; simp [sendBatch, batchEvents]
  | cons op rest ih =>
    intro w
    have hstep : sendBatch env0 msgid (op :: rest) w
        = sendBatch env0 msgid rest
            ⟨w.trace ++ [WEvent.sent ⟨msgid, op, []⟩], w.sends + 1, w.flushes⟩ := rfl
    rw [hstep, ih]
    simp [batchEvents, List.append_assoc]
    omega

theorem hm_env0_some {σ Op Ctl : Type} (handle : Handler σ Op) (m : LdapMsg Op Ctl)
    (w : Writer Op Ctl) (s : σ) (s2 : σ) (batch : List Op)
    (h : handle s m.op = (s2, some batch)) :
    handle_incoming_message env0 handle (Except.ok m) w s
      = (Except.ok true,
          ⟨w.trace ++ batchEvents m.msgid batch ++ [WEvent.flushed],
           w.sends + batch.length, w.flushes + 1⟩, s2) := by
  have hflush : ∀ (w2 : Writer Op Ctl),
      Writer.flush env0 w2
        = (none, ⟨w2.trace ++ [WEvent.flushed], w2.sends, w2.flushes + 1⟩) :=
    fun _ => rfl
  simp only [handle_incoming_message, h, sendBatch_env0, hflush, List.append_assoc]

theorem session_loop_env0_trace {σ Op Ctl : Type} (handle : Handler σ Op) :
    ∀ (msgs : List (LdapMsg Op Ctl)) (w : Writer Op Ctl) (s : σ),
    (session_loop env0 handle (msgs.map Except.ok) w s).2.1.trace
      = w.trace ++ specTrace handle s msgs := by
  intro msgs
  induction msgs with
  | nil => intro w s; simp [session_loop, specTrace]
  | cons m rest ih =>
    intro w s
    rcases hh : handle s m.op with ⟨s2, res⟩
    cases res with
    | none =>
      simp [session_loop, handle_incoming_message, hh, specTrace]
    | some batch =>
      simp only [List.map_cons, session_loop, hm_env0_some handle m w s s2 batch hh,
        specTrace, hh, ih, List.append_assoc]

theorem sentIds_append {Op Ctl : Type} :
    ∀ (a b : List (WEvent Op Ctl)), sentIds (a ++ b) = sentIds a ++ sentIds b := by
  intro a b
  induction a with
  | nil => rfl
  | cons ev rest ih => cases ev <;> simp [sentIds, ih]

theorem sentIds_batchEvents {Op Ctl : Type} (msgid : Int) :
    ∀ ops : List Op, sentIds (batchEvents msgid ops : List (WEvent Op Ctl))
      = List.replicate ops.length msgid := by
  intro ops
  induction ops with
  | nil => rfl
  | cons op rest ih => simp [batchEvents, sentIds, List.replicate] at ih ⊢; exact ih

theorem sentIds_specTrace {σ Op Ctl : Type} (handle : Handler σ Op) :
    ∀ (msgs : List (LdapMsg Op Ctl)) (s : σ),
    sentIds (specTrace handle s msgs) = specIds handle s msgs := by
  intro msgs
  induction msgs with
  | nil => intro s; rfl
  | cons m rest ih =>
    intro s
    rcases hh : handle s m.op with ⟨s2, res⟩
    cases res with
    | none => simp [specTrace, specIds, hh, sentIds]
    | some batch =>
      simp [specTrace, specIds, hh, sentIds_append, sentIds_batchEvents, sentIds, ih]

theorem specIds_mem {σ Op Ctl : Type} (handle : Handler σ Op) :
    ∀ (msgs : List (LdapMsg Op Ctl)) (s : σ) (i : Int),
    i ∈ specIds handle s msgs → i ∈ msgs.map LdapMsg.msgid := by
  intro msgs
  induction msgs with
  | nil => intro s i h; simp [specIds] at h
  | cons m rest ih =>
    intro s i h
    rcases hh : handle s m.op with ⟨s2, res⟩
    cases res with
    | none => simp [specIds, hh] at h
    | some batch =>
      simp only [specIds, hh, List.mem_append, List.mem_replicate] at h
      rcases h with ⟨-, rfl⟩ | h
      · simp
      · have hr := ih s2 i h
        simp only [List.map_cons, List.mem_cons]
        exact Or.inr (by simpa using hr)

theorem sendBatch_retag {Op Ctl : Type} (env : Env) (i₁ i₂ : Int) :
    ∀ (ops : List Op) (t₁ t₂ : List (WEvent Op Ctl)) (ns nf : Nat),
    ∃ (r : Option Nat) (u : List (WEvent Op Ctl)) (k : Nat),
      sendBatch env i₁ ops ⟨t₁, ns, nf⟩ = (r, ⟨t₁ ++ u, ns + k, nf⟩) ∧
      sendBatch env i₂ ops ⟨t₂, ns, nf⟩ = (r, ⟨t₂ ++ u.map (setMsgid i₂), ns + k, nf⟩) := by
  intro ops
  induction ops with
  | nil =>
    intro t₁ t₂ ns nf
    exact ⟨none, [], 0, by simp [sendBatch], by simp [sendBatch]⟩
  | cons op rest ih =>
    intro t₁ t₂ ns nf
    cases hs : env.sendErr ns with
    | some e =>
      refine ⟨some e, [], 1, ?_, ?_⟩ <;> simp [sendBatch, Writer.send, hs]
    | none =>
      obtain ⟨r, u, k, h1, h2⟩ :=
        ih (t₁ ++ [WEvent.sent ⟨i₁, op, []⟩]) (t₂ ++ [WEvent.sent ⟨i₂, op, []⟩]) (ns + 1) nf
      refine ⟨r, WEvent.sent ⟨i₁, op, []⟩ :: u, k + 1, ?_, ?_⟩
      · have hstep : sendBatch env i₁ (op :: rest) (⟨t₁, ns, nf⟩ : Writer Op Ctl)
            = sendBatch env i₁ rest ⟨t₁ ++ [WEvent.sent ⟨i₁, op, []⟩], ns + 1, nf⟩ := by
          simp [sendBatch, Writer.send, hs]
        rw [hstep, h1]
        simp [List.append_assoc]
        omega
      · have hstep : sendBatch env i₂ (op :: rest) (⟨t₂, ns, nf⟩ : Writer Op Ctl)
            = sendBatch env i₂ rest ⟨t₂ ++ [WEvent.sent ⟨i₂, op, []⟩], ns + 1, nf⟩ := by
          simp [sendBatch, Writer.send, hs]
        rw [hstep, h2]
        simp [setMsgid, List.append_assoc]
        omega

theorem sendBatch_trace_mono {Op Ctl : Type} (env : Env) (i : Int) (ops : List Op)
    (w : Writer Op Ctl) :
    ∃ u, (sendBatch env i ops w).2.trace = w.trace ++ u := by
  obtain ⟨r, u, k, h1, -⟩ := sendBatch_retag env i i ops w.trace w.trace w.sends w.flushes
  have h2 : sendBatch env i ops w
      = (r, ⟨w.trace ++ u, w.sends + k, w.flushes⟩) := h1
  exact ⟨u, by rw [h2]⟩

theorem session_loop_ok_iff {σ Op Ctl : Type} (env : Env) (handle : Handler σ Op) :
    ∀ (msgs : List (Except Nat (LdapMsg Op Ctl))) (w : Writer Op Ctl) (s : σ),
    (session_loop env handle msgs w s).1 = Except.ok ()
      ↔ (runOutcome env handle msgs w s = Outcome.exhausted
          ∨ ∃ rest, runOutcome env handle msgs w s = Outcome.terminated rest) := by
  intro msgs
  induction msgs with
  | nil => intro w s; simp [session_loop, runOutcome]
  | cons m rest ih =>
    intro w s
    cases m with
    | error e => simp [session_loop, handle_incoming_message, runOutcome]
    | ok m =>
      rcases hh : handle s m.op with ⟨s2, res⟩
      cases res with
      | none => simp [session_loop, handle_incoming_message, hh, runOutcome]
      | some batch =>
        rcases hb : sendBatch env m.msgid batch w with ⟨err, w2⟩
        cases err with
        | some e => simp [session_loop, handle_incoming_message, hh, hb, runOutcome]
        | none =>
          rcases hf : Writer.flush env w2 with ⟨ferr, w3⟩
          cases ferr with
          | some e => simp [session_loop, handle_incoming_message, hh, hb, hf, runOutcome]
          | none => simp [session_loop, handle_incoming_message, hh, hb, hf, runOutcome, ih]

theorem hm_error_shape {σ Op Ctl : Type} (env : Env) (handle : Handler σ Op)
    (msg : Except Nat (LdapMsg Op Ctl)) (w : Writer Op Ctl) (s : σ)
    (e : AError) (w2 : Writer Op Ctl) (s2 : σ)
    (h : handle_incoming_message env handle msg w s = (Except.error e, w2, s2)) :
    ∃ base phase,
      (phase = recvContext ∨ phase = sendContext ∨ phase = flushContext) ∧
      e = ⟨base, [phase]⟩ := by
  cases msg with
  | error e0 =>
    simp only [handle_incoming_message, Prod.mk.injEq, Except.error.injEq] at h
    exact ⟨e0, recvContext, Or.inl rfl, h.1.symm⟩
  | ok m =>
    rcases hh : handle s m.op with ⟨si, res⟩
    cases res with
    | none => simp [handle_incoming_message, hh] at h
    | some batch =>
      rcases hb : sendBatch env m.msgid batch w with ⟨err, wi⟩
      cases err with
      | some e0 =>
        simp only [handle_incoming_message, hh, hb, Prod.mk.injEq, Except.error.injEq] at h
        exact ⟨e0, sendContext, Or.inr (Or.inl rfl), h.1.symm⟩
      | none =>
        rcases hf : Writer.flush env wi with ⟨ferr, wj⟩
        cases ferr with
        | some e0 =>
          simp only [handle_incoming_message, hh, hb, hf, Prod.mk.injEq,
            Except.error.injEq] at h
          exact ⟨e0, flushContext, Or.inr (Or.inr rfl), h.1.symm⟩
        | none => simp [handle_incoming_message, hh, hb, hf] at h

theorem session_loop_error_shape {σ Op Ctl : Type} (env : Env) (handle : Handler σ Op) :
    ∀ (msgs : List (Except Nat (LdapMsg Op Ctl))) (w : Writer Op Ctl) (s : σ)
      (e : AError) (w2 : Writer Op Ctl) (s2 : σ),
    session_loop env handle msgs w s = (Except.error e, w2, s2) →
    ∃ base phase,
      (phase = recvContext ∨ phase = sendContext ∨ phase = flushContext) ∧
      e = ⟨base, [loopContext, phase]⟩ := by
  intro msgs
  induction msgs with
  | nil => intro w s e w2 s2 h; simp [session_loop] at h
  | cons m rest ih =>
    intro w s e w2 s2 h
    rcases hm : handle_incoming_message env handle m w s with ⟨r, wi, si⟩
    cases r with
    | error e0 =>
      simp only [session_loop, hm, Prod.mk.injEq, Except.error.injEq] at h
      obtain ⟨base, phase, hphase, hshape⟩ :=
        hm_error_shape env handle m w s e0 wi si hm
      refine ⟨base, phase, hphase, ?_⟩
      rw [← h.1, hshape]
      rfl
    | ok b =>
      cases b with
      | true =>
        have hrec : session_loop env handle rest wi si = (Except.error e, w2, s2) := by
          simpa only [session_loop, hm] using h
        exact ih wi si e w2 s2 hrec
      | false => simp [session_loop, hm] at h

/-- A concrete echo handler for witnesses: replies with one operation. -/
def hEcho : Handler Nat Nat := fun s op => (s, some [op])

/-- A concrete handler for witnesses: always the terminate sentinel. -/
def hTerm : Handler Nat Nat := fun s _ => (s, none)

/-- A concrete handler for witnesses: always an empty response batch. -/
def hEmpty : Handler Nat Nat := fun s _ => (s, some [])

/-- An environment whose every send attempt fails with io error 7. -/
def envSendFail : Env := ⟨fun _ => some 7, fun _ => none⟩

/-- An environment whose every flush attempt fails with io error 9. -/
def envFlushFail : Env := ⟨fun _ => none, fun _ => some 9⟩

/-- C1: on a fault-free connection, the correlation ids of the outbound
messages written by the session loop are exactly, in order, the inbound
msgids repeated once per response operation (specIds), and every outbound
correlation id is the msgid of some received inbound message. -/
theorem claim_C1 {σ Op Ctl : Type} (handle : Handler σ Op) (s : σ)
    (msgs : List (LdapMsg Op Ctl)) :
    sentIds ((session_loop env0 handle (msgs.map Except.ok)
        (Writer.init : Writer Op Ctl) s).2.1.trace)
      = specIds handle s msgs
    ∧ ∀ i ∈ sentIds ((session_loop env0 handle (msgs.map Except.ok)
        (Writer.init : Writer Op Ctl) s).2.1.trace),
        i ∈ msgs.map LdapMsg.msgid := by
  have ht := session_loop_env0_trace handle msgs Writer.init s
  have h1 : sentIds ((session_loop env0 handle (msgs.map Except.ok)
      (Writer.init : Writer Op Ctl) s).2.1.trace) = specIds handle s msgs := by
    rw [ht]
    simp [Writer.init, sentIds_specTrace]
  refine ⟨h1, fun i hi => specIds_mem handle msgs s i ?_⟩
  rw [← h1]
  exact hi

/-- Closed instance of C1 at a concrete echo run. -/
theorem claim_C1_witness :
    (5 : Int) ∈ ([⟨5, 11, [0]⟩] : List (LdapMsg Nat Nat)).map LdapMsg.msgid :=
  (claim_C1 hEcho 0 [⟨5, 11, [0]⟩]).2 5 (by decide)

/-- C2: when the handler returns a batch for an inbound message and io
succeeds, the loop body writes exactly one outbound message per response
operation, in batch order, each echoing the inbound msgid with empty
controls, then flushes once. -/
theorem claim_C2 {σ Op Ctl : Type} (handle : Handler σ Op) (m : LdapMsg Op Ctl)
    (w : Writer Op Ctl) (s s2 : σ) (batch : List Op)
    (h : handle s m.op = (s2, some batch)) :
    handle_incoming_message env0 handle (Except.ok m) w s
      = (Except.ok true,
          ⟨w.trace ++ batchEvents m.msgid batch ++ [WEvent.flushed],
           w.sends + batch.length, w.flushes + 1⟩, s2) :=
  hm_env0_some handle m w s s2 batch h

/-- Closed instance of C2 at a concrete echo run. -/
theorem claim_C2_witness :
    handle_incoming_message env0 hEcho (Except.ok (⟨7, 3, []⟩ : LdapMsg Nat Nat))
        Writer.init 0
      = (Except.ok true, ⟨[WEvent.sent ⟨7, 3, []⟩, WEvent.flushed], 1, 1⟩, 0) := by
  simpa using claim_C2 hEcho ⟨7, 3, []⟩ Writer.init 0 0 [3] rfl

/-- C3: on a fault-free connection the full wire trace equals specTrace,
the concatenation, message by message in arrival order, of the full
response batch of message N followed by its flush; hence no event of
message N+1 precedes the completion and flush of message N. -/
theorem claim_C3 {σ Op Ctl : Type} (handle : Handler σ Op) (s : σ)
    (msgs : List (LdapMsg Op Ctl)) :
    (session_loop env0 handle (msgs.map Except.ok)
        (Writer.init : Writer Op Ctl) s).2.1.trace
      = specTrace handle s msgs := by
  have ht := session_loop_env0_trace handle msgs Writer.init s
  simpa [Writer.init] using ht

/-- C4: the loop returns without error exactly when the run is classified
as stream exhaustion or a terminate sentinel; and on a terminate sentinel
for message M the loop returns ok immediately, with the writer untouched
and the remaining stream items never read. -/
theorem claim_C4 {σ Op Ctl : Type} (env : Env) (handle : Handler σ Op)
    (w : Writer Op Ctl) (s : σ) :
    (∀ msgs : List (Except Nat (LdapMsg Op Ctl)),
      (session_loop env handle msgs w s).1 = Except.ok ()
        ↔ (runOutcome env handle msgs w s = Outcome.exhausted
            ∨ ∃ rest, runOutcome env handle msgs w s = Outcome.terminated rest))
    ∧ (∀ (m : LdapMsg Op Ctl) (rest : List (Except Nat (LdapMsg Op Ctl))) (s2 : σ),
        handle s m.op = (s2, none) →
        session_loop env handle (Except.ok m :: rest) w s = (Except.ok (), w, s2)) := by
  refine ⟨fun msgs => session_loop_ok_iff env handle msgs w s, fun m rest s2 h => ?_⟩
  simp [session_loop, handle_incoming_message, h]

/-- Closed instance of C4: terminate sentinel before a decode error still
exits with ok, and the empty stream exits with ok. -/
theorem claim_C4_witness :
    session_loop env0 hTerm [Except.ok (⟨4, 1, []⟩ : LdapMsg Nat Nat), Except.error 3]
        Writer.init 0 = (Except.ok (), Writer.init, 0)
    ∧ (session_loop env0 hTerm ([] : List (Except Nat (LdapMsg Nat Nat)))
        Writer.init 0).1 = Except.ok () :=
  ⟨(claim_C4 env0 hTerm Writer.init 0).2 ⟨4, 1, []⟩ [Except.error 3] 0 rfl,
   ((claim_C4 env0 hTerm Writer.init 0).1 []).mpr (Or.inl rfl)⟩

/-- C5: a decode error terminates the connection with the io error
wrapped in the receive-phase context (and the outer loop context), with
the writer untouched (nothing sent or flushed), the session untouched
(nothing dispatched), and the rest of the stream never read. -/
theorem claim_C5 {σ Op Ctl : Type} (env : Env) (handle : Handler σ Op) (e : Nat)
    (rest : List (Except Nat (LdapMsg Op Ctl))) (w : Writer Op Ctl) (s : σ) :
    session_loop env handle (Except.error e :: rest) w s
      = (Except.error ⟨e, [loopContext, recvContext]⟩, w, s)
    ∧ handle_incoming_message env handle (Except.error e) w s
      = (Except.error ⟨e, [recvContext]⟩, w, s) :=
  ⟨rfl, rfl⟩

/-- C6: a failed send of an operation in the batch surfaces the io error
wrapped in the send-phase context, a failed post-batch flush surfaces it
wrapped in the flush-phase context; either failure ends the loop there
(the rest of the stream is never read), and the writer trace only ever
extends the trace that existed before the message, so earlier flushed
messages are neither re-sent nor rolled back. -/
theorem claim_C6 {σ Op Ctl : Type} (env : Env) (handle : Handler σ Op)
    (m : LdapMsg Op Ctl) (rest : List (Except Nat (LdapMsg Op Ctl)))
    (w : Writer Op Ctl) (s s2 : σ) (batch : List Op)
    (h : handle s m.op = (s2, some batch)) :
    (∀ e w2, sendBatch env m.msgid batch w = (some e, w2) →
      session_loop env handle (Except.ok m :: rest) w s
        = (Except.error ⟨e, [loopContext, sendContext]⟩, w2, s2)
      ∧ ∃ t, w2.trace = w.trace ++ t)
    ∧ (∀ w2 e w3, sendBatch env m.msgid batch w = (none, w2) →
        Writer.flush env w2 = (some e, w3) →
        session_loop env handle (Except.ok m :: rest) w s
          = (Except.error ⟨e, [loopContext, flushContext]⟩, w3, s2)
        ∧ ∃ t, w3.trace = w.trace ++ t) := by
  constructor
  · intro e w2 hb
    constructor
    · simp [session_loop, handle_incoming_message, h, hb, ioContext, addContext]
    · obtain ⟨u, hu⟩ := sendBatch_trace_mono env m.msgid batch w
      rw [hb] at hu
      exact ⟨u, hu⟩
  · intro w2 e w3 hb hf
    constructor
    · simp [session_loop, handle_incoming_message, h, hb, hf, ioContext, addContext]
    · obtain ⟨u, hu⟩ := sendBatch_trace_mono env m.msgid batch w
      rw [hb] at hu
      have hw3 : w3.trace = w2.trace := by
        cases hfe : env.flushErr w2.flushes with
        | some e0 =>
          simp only [Writer.flush, hfe, Prod.mk.injEq, Option.some.injEq] at hf
          rw [← hf.2]
        | none => simp [Writer.flush, hfe] at hf
      exact ⟨u, by rw [hw3]; exact hu⟩

/-- Closed instance of C6: one run with a failing send, one with a
failing flush. -/
theorem claim_C6_witness :
    (session_loop envSendFail hEcho [Except.ok (⟨5, 1, []⟩ : LdapMsg Nat Nat)]
        Writer.init 0
      = (Except.error ⟨7, [loopContext, sendContext]⟩, ⟨[], 1, 0⟩, 0))
    ∧ (session_loop envFlushFail hEcho [Except.ok (⟨6, 2, []⟩ : LdapMsg Nat Nat)]
        Writer.init 0
      = (Except.error ⟨9, [loopContext, flushContext]⟩,
          ⟨[WEvent.sent ⟨6, 2, []⟩], 1, 1⟩, 0)) :=
  ⟨((claim_C6 envSendFail hEcho ⟨5, 1, []⟩ [] Writer.init 0 0 [1] rfl).1
      7 ⟨[], 1, 0⟩ rfl).1,
   ((claim_C6 envFlushFail hEcho ⟨6, 2, []⟩ [] Writer.init 0 0 [2] rfl).2
      ⟨[WEvent.sent ⟨6, 2, []⟩], 1, 0⟩ 9 ⟨[WEvent.sent ⟨6, 2, []⟩], 1, 1⟩ rfl rfl).1⟩

/-- C8: the handler is invoked with the operation payload only, so two
inbound messages with the same operation but different msgid or controls
produce the same loop result and session state, and wire traces that
differ only in the echoed correlation id of the sent messages. -/
theorem claim_C8 {σ Op Ctl : Type} (env : Env) (handle : Handler σ Op)
    (m₁ m₂ : LdapMsg Op Ctl) (w : Writer Op Ctl) (s : σ) (hop : m₁.op = m₂.op) :
    ∃ (t : List (WEvent Op Ctl)) (res : Except AError Bool) (s2 : σ) (ns nf : Nat),
      handle_incoming_message env handle (Except.ok m₁) w s
        = (res, ⟨w.trace ++ t, ns, nf⟩, s2)
      ∧ handle_incoming_message env handle (Except.ok m₂) w s
        = (res, ⟨w.trace ++ t.map (setMsgid m₂.msgid), ns, nf⟩, s2) := by
  rcases hh : handle s m₁.op with ⟨s2, res0⟩
  have hh2 : handle s m₂.op = (s2, res0) := by rw [← hop]; exact hh
  cases res0 with
  | none =>
    refine ⟨[], Except.ok false, s2, w.sends, w.flushes, ?_, ?_⟩ <;>
      simp [handle_incoming_message, hh, hh2]
  | some batch =>
    obtain ⟨r, u, k, h1, h2⟩ :=
      sendBatch_retag env m₁.msgid m₂.msgid batch w.trace w.trace w.sends w.flushes
    have h1w : sendBatch env m₁.msgid batch w
        = (r, ⟨w.trace ++ u, w.sends + k, w.flushes⟩) := h1
    have h2w : sendBatch env m₂.msgid batch w
        = (r, ⟨w.trace ++ u.map (setMsgid m₂.msgid), w.sends + k, w.flushes⟩) := h2
    cases r with
    | some e =>
      refine ⟨u, Except.error (ioContext sendContext e), s2, w.sends + k, w.flushes,
        ?_, ?_⟩ <;> simp [handle_incoming_message, hh, hh2, h1w, h2w]
    | none =>
      cases hfe : env.flushErr w.flushes with
      | some e =>
        refine ⟨u, Except.error (ioContext flushContext e), s2, w.sends + k,
          w.flushes + 1, ?_, ?_⟩ <;>
          simp [handle_incoming_message, hh, hh2, h1w, h2w, Writer.flush, hfe]
      | none =>
        refine ⟨u ++ [WEvent.flushed], Except.ok true, s2, w.sends + k,
          w.flushes + 1, ?_, ?_⟩ <;>
          simp [handle_incoming_message, hh, hh2, h1w, h2w, Writer.flush, hfe,
            setMsgid, List.append_assoc]

/-- Closed instance of C8: same operation under two different msgids and
controls. -/
theorem claim_C8_witness :
    ∃ (t : List (WEvent Nat Nat)) (res : Except AError Bool) (s2 ns nf : Nat),
      handle_incoming_message env0 hEcho
          (Except.ok (⟨1, 4, []⟩ : LdapMsg Nat Nat)) Writer.init 0
        = (res, ⟨Writer.init.trace ++ t, ns, nf⟩, s2)
      ∧ handle_incoming_message env0 hEcho
          (Except.ok (⟨2, 4, [6]⟩ : LdapMsg Nat Nat)) Writer.init 0
        = (res, ⟨Writer.init.trace ++ t.map (setMsgid 2), ns, nf⟩, s2) :=
  claim_C8 env0 hEcho ⟨1, 4, []⟩ ⟨2, 4, [6]⟩ Writer.init 0 rfl

/-- C7: an empty response batch writes nothing for the message, still
performs the flush, and the loop continues with the next message. -/
theorem claim_C7 {σ Op Ctl : Type} (env : Env) (handle : Handler σ Op)
    (m : LdapMsg Op Ctl) (rest : List (Except Nat (LdapMsg Op Ctl)))
    (w : Writer Op Ctl) (s s2 : σ)
    (h : handle s m.op = (s2, some []))
    (hf : env.flushErr w.flushes = none) :
    handle_incoming_message env handle (Except.ok m) w s
      = (Except.ok true, ⟨w.trace ++ [WEvent.flushed], w.sends, w.flushes + 1⟩, s2)
    ∧ session_loop env handle (Except.ok m :: rest) w s
      = session_loop env handle rest ⟨w.trace ++ [WEvent.flushed], w.sends, w.flushes + 1⟩ s2 := by
  have h1 : handle_incoming_message env handle (Except.ok m) w s
      = (Except.ok true, ⟨w.trace ++ [WEvent.flushed], w.sends, w.flushes + 1⟩, s2) := by
    simp [handle_incoming_message, h, sendBatch, Writer.flush, hf]
  exact ⟨h1, by simp [session_loop, h1]⟩

/-- Closed instance of C7 at a concrete empty-batch run. -/
theorem claim_C7_witness :
    session_loop env0 hEmpty [Except.ok (⟨8, 2, []⟩ : LdapMsg Nat Nat)] Writer.init 0
      = session_loop env0 hEmpty [] (⟨[WEvent.flushed], 0, 1⟩ : Writer Nat Nat) 0 :=
  (claim_C7 env0 hEmpty ⟨8, 2, []⟩ [] Writer.init 0 0 rfl rfl).2

/-- C9: on the terminate sentinel, handle_incoming_message returns false
at once with the writer exactly as it was: no send and no flush happen
for that message. -/
theorem claim_C9 {σ Op Ctl : Type} (env : Env) (handle : Handler σ Op)
    (m : LdapMsg Op Ctl) (w : Writer Op Ctl) (s s2 : σ)
    (h : handle s m.op = (s2, none)) :
    handle_incoming_message env handle (Except.ok m) w s = (Except.ok false, w, s2) := by
  simp [handle_incoming_message, h]

/-- Closed instance of C9 at a concrete terminate run. -/
theorem claim_C9_witness :
    handle_incoming_message env0 hTerm (Except.ok (⟨2, 9, []⟩ : LdapMsg Nat Nat))
        Writer.init 0 = (Except.ok false, Writer.init, 0) :=
  claim_C9 env0 hTerm ⟨2, 9, []⟩ Writer.init 0 0 rfl

/-- C10: every error surfaced by the connection loop is an io error
wrapped first in its phase context (receive, send, or flush) and then in
the outer loop context. -/
theorem claim_C10 {σ Op Ctl : Type} (env : Env) (handle : Handler σ Op)
    (msgs : List (Except Nat (LdapMsg Op Ctl))) (w : Writer Op Ctl) (s : σ)
    (e : AError) (w2 : Writer Op Ctl) (s2 : σ)
    (h : session_loop env handle msgs w s = (Except.error e, w2, s2)) :
    ∃ base phase,
      (phase = recvContext ∨ phase = sendContext ∨ phase = flushContext) ∧
      e = ⟨base, [loopContext, phase]⟩ :=
  session_loop_error_shape env handle msgs w s e w2 s2 h

/-- Closed instance of C10 at a concrete decode-error run. -/
theorem claim_C10_witness :
    ∃ base phase,
      (phase = recvContext ∨ phase = sendContext ∨ phase = flushContext) ∧
      (⟨3, [loopContext, recvContext]⟩ : AError) = ⟨base, [loopContext, phase]⟩ :=
  claim_C10 env0 hEcho ([Except.error 3] : List (Except Nat (LdapMsg Nat Nat)))
    Writer.init 0 ⟨3, [loopContext, recvContext]⟩ Writer.init 0 rfl

end Lldap
